import Mathlib

/-!
Shallow embedding of the jail lifecycle service
(`src/middlewared/middlewared/plugins/jail.py`, class `JailService`).

The service coordinates an external backend (iocage / libzfs).  The embedding
models the observable behaviour of each operation:

* `Env` is the external inventory of jails (identifier, path, run state and
  the configuration fields the operations read).
* Every operation returns an `OpOut`: the `Except` result (a raised exception
  becomes `Except.error`), the inventory after the operation, and the ordered
  trace of calls delegated to the external backend.
* External steps that can fail (the delegated export / upgrade / fetch-update
  body, `iocage.create`, the synchronous fetch) are parametrised by a
  Boolean telling whether that external step succeeds.
-/

namespace JailService

/-- Run state of a jail, as reported by `IOCList.list_get_jid` (`status`). -/
inductive RunState where
  | running
  | stopped
deriving DecidableEq, Repr

/-- A jail as seen through the external inventory: the identifier and path
returned by `check_jail_existence`, the live run state, and the fields of the
on-disk configuration (`IOCJson(path).json_load()`) that the operations read:
`conf["type"]`, `conf["basejail"]` and `conf["release"]`. -/
structure Jail where
  uuid : String
  path : String
  runState : RunState
  confType : String
  basejail : String
  release : String
deriving DecidableEq, Repr

/-- The external inventory: the list of existing jails. -/
abbrev Env := List Jail

/-- Errors raised by the service.  `notFound` is the
`CallError(f"jail '{jail}' not found!")` of `check_jail_existence` (the
spec's `NotFoundError`); `validation` is the `ValueError` raised by `fstab`
(the spec's `ValidationError`); `callError` is a `CallError` wrapping an
external failure. -/
inductive JailError where
  | notFound (jail : String)
  | validation (msg : String)
  | callError (msg : String)
deriving DecidableEq, Repr

/-- A call delegated to the external backend, in order of execution. -/
inductive Call where
  | start (jail : String)
  | stop (jail : String)
  | exportJail (uuid path : String)
  | fetchUpdate (release : String) (jailUpdate : Bool)
  | upgradeJail (release : String)
  | setProp (prop : String) (plugin : Bool)
  | rename (name : String)
  | destroyJail (jail : String)
  | fstabDelegate (action : String)
  | fetchRelease (release : String)
  | createDelegate (release : String)
deriving DecidableEq, Repr

deriving instance DecidableEq for Except

/-- Outcome of one service operation: the returned value or raised error, the
inventory afterwards, and the trace of backend calls. -/
structure OpOut (α : Type) where
  result : Except JailError α
  env : Env
  calls : List Call
deriving DecidableEq, Repr

/-- `check_jail_existence`'s lookup: the first jail whose identifier matches. -/
def findJail (env : Env) (jail : String) : Option Jail :=
  env.find? (fun j => j.uuid == jail)

/-- Record a new run state for a jail in the inventory. -/
def setRun (env : Env) (jail : String) (rs : RunState) : Env :=
  env.map (fun j => if j.uuid == jail then { j with runState := rs } else j)

/-- Run state of a jail in an inventory, if the jail exists. -/
def runStateOf (env : Env) (jail : String) : Option RunState :=
  (findJail env jail).map Jail.runState

/-- `JailService.start`: resolve the identifier, then delegate
`iocage.start()`, which leaves the jail running. -/
def start (env : Env) (jail : String) : OpOut Bool :=
  match findJail env jail with
  | none => ⟨.error (.notFound jail), env, []⟩
  | some _ => ⟨.ok true, setRun env jail .running, [.start jail]⟩

/-- `JailService.stop`: resolve the identifier, then delegate
`iocage.stop()`, which leaves the jail stopped. -/
def stop (env : Env) (jail : String) : OpOut Bool :=
  match findJail env jail with
  | none => ⟨.error (.notFound jail), env, []⟩
  | some _ => ⟨.ok true, setRun env jail .stopped, [.stop jail]⟩

/-- `JailService.do_delete`: resolve the identifier, then delegate
`iocage.destroy_jail()`. -/
def do_delete (env : Env) (jail : String) : OpOut Bool :=
  match findJail env jail with
  | none => ⟨.error (.notFound jail), env, []⟩
  | some _ =>
    ⟨.ok true, env.filter (fun j => j.uuid != jail), [.destroyJail jail]⟩

/-- `JailService.do_update`: resolve the identifier, delegate one
`iocage.set(f"{prop}={val}", plugin)` per property, then
`iocage.rename(name)` when a (truthy) name was supplied.  Property and
rename effects live in the external backend; they are recorded in the call
trace. -/
def do_update (env : Env) (jail : String) (plugin : Bool)
    (props : List (String × String)) (name : Option String) : OpOut Bool :=
  match findJail env jail with
  | none => ⟨.error (.notFound jail), env, []⟩
  | some _ =>
    let setCalls := props.map (fun pv => Call.setProp (pv.1 ++ "=" ++ pv.2) plugin)
    let renameCalls :=
      match name with
      | some n => if n == "" then [] else [Call.rename n]
      | none => []
    ⟨.ok true, env, setCalls ++ renameCalls⟩

/-! ### Release-tag normalization (`update_to_latest_patch`, lines 337-340) -/

/-- Is `pat` a prefix of `s` (over character lists)? -/
def startsWith : List Char → List Char → Bool
  | [], _ => true
  | _ :: _, [] => false
  | a :: as, b :: bs => a == b && startsWith as bs

/-- Does `s` contain `pat` as a contiguous substring?  Embeds Python's
`pat in s`. -/
def hasSub (pat : List Char) : List Char → Bool
  | [] => startsWith pat []
  | c :: rest => startsWith pat (c :: rest) || hasSub pat rest

/-- Characters before the last `'-'`, or `none` when there is no `'-'`. -/
def rsplitHeadAux : List Char → Option (List Char)
  | [] => none
  | c :: rest =>
    match rsplitHeadAux rest with
    | some l => some (c :: l)
    | none => if c == '-' then some [] else none

/-- Python's `s.rsplit("-", 1)[0]`: everything before the last `'-'`, or the
whole string when there is none. -/
def rsplitHead (s : String) : String :=
  match rsplitHeadAux s.data with
  | some l => ⟨l⟩
  | none => s

/-- The release normalization performed by `update_to_latest_patch`:
`_release = conf["release"].rsplit("-", 1)[0]` then
`release = _release if "-RELEASE" in _release else conf["release"]`. -/
def normalizeRelease (confRelease : String) : String :=
  let r := rsplitHead confRelease
  if hasSub "-RELEASE".data r.data then r else confRelease

/-! ### Bracketed operations: export, upgrade, update_to_latest_patch

Each is sequential Python with no `try`/`finally`: a raised exception in the
delegated body propagates immediately, skipping the statements after it.
`bodyOk` tells whether the delegated external body
(`IOCImage().export_jail`, `IOCUpgrade(...).upgrade_jail`,
`IOCFetch(release).fetch_update`) succeeds. -/

/-- `JailService.export`: resolve, read run state; stop when running; delegate
`IOCImage().export_jail(uuid, path)`; restart only when the body returned and
the jail had been stopped here. -/
def export' (env : Env) (jail : String) (bodyOk : Bool) : OpOut Bool :=
  match findJail env jail with
  | none => ⟨.error (.notFound jail), env, []⟩
  | some j =>
    let status := j.runState == .running
    let pre := if status then stop env jail else ⟨.ok true, env, []⟩
    if bodyOk then
      let post := if status then start pre.env jail else ⟨.ok true, pre.env, []⟩
      ⟨.ok true, post.env, pre.calls ++ [.exportJail j.uuid j.path] ++ post.calls⟩
    else
      ⟨.error (.callError "export_jail failed"), pre.env,
        pre.calls ++ [.exportJail j.uuid j.path]⟩

/-- `JailService.upgrade`: resolve, read run state and config; for
`conf["type"] == "jail"` start when stopped, delegate
`IOCUpgrade(conf, release, root_path).upgrade_jail()`, stop again only when
the body returned and the jail had been started here; any other config type
returns `False` at once. -/
def upgrade (env : Env) (jail : String) (release : String) (bodyOk : Bool) :
    OpOut Bool :=
  match findJail env jail with
  | none => ⟨.error (.notFound jail), env, []⟩
  | some j =>
    let status := j.runState == .running
    if j.confType == "jail" then
      let pre := if !status then start env jail else ⟨.ok true, env, []⟩
      if bodyOk then
        let post := if !status then stop pre.env jail else ⟨.ok true, pre.env, []⟩
        ⟨.ok true, post.env, pre.calls ++ [.upgradeJail release] ++ post.calls⟩
      else
        ⟨.error (.callError "upgrade_jail failed"), pre.env,
          pre.calls ++ [.upgradeJail release]⟩
    else
      ⟨.ok false, env, []⟩

/-- `JailService.update_to_latest_patch`: resolve, read run state and config,
normalize the release tag; for `conf["type"] == "jail"` start when stopped,
delegate `IOCFetch(release).fetch_update(True, uuid)` (or `fetch_update()` for
basejails), stop again only when the body returned and the jail had been
started here; any other config type returns `False` at once. -/
def update_to_latest_patch (env : Env) (jail : String) (bodyOk : Bool) :
    OpOut Bool :=
  match findJail env jail with
  | none => ⟨.error (.notFound jail), env, []⟩
  | some j =>
    let status := j.runState == .running
    let release := normalizeRelease j.release
    if j.confType == "jail" then
      let pre := if !status then start env jail else ⟨.ok true, env, []⟩
      let body := Call.fetchUpdate release (j.basejail != "yes")
      if bodyOk then
        let post := if !status then stop pre.env jail else ⟨.ok true, pre.env, []⟩
        ⟨.ok true, post.env, pre.calls ++ [body] ++ post.calls⟩
      else
        ⟨.error (.callError "fetch_update failed"), pre.env, pre.calls ++ [body]⟩
    else
      ⟨.ok false, env, []⟩

/-! ### Pool activation -/

/-- A storage pool as seen through libzfs: its name and whether the
`org.freebsd.ioc:active` user property is `"yes"`. -/
structure StoragePool where
  name : String
  active : Bool
deriving DecidableEq, Repr

/-- `JailService.activate`: sweep over every pool of the backend, setting the
active property to yes on the pool whose name matches and to no on every
other pool; always returns `True`. -/
def activate (pools : List StoragePool) (pool : String) :
    Except JailError Bool × List StoragePool :=
  (.ok true,
    pools.map (fun p =>
      if p.name == pool then { p with active := true }
      else { p with active := false }))

/-! ### Inventory query -/

/-- The live attribute mapping of one jail as returned by the enumeration
backend. -/
abbrev JailRecord := List (String × String)

/-- Value of an attribute in a record. -/
def attrOf (r : JailRecord) (key : String) : Option String :=
  (r.find? (fun kv => kv.1 == key)).map Prod.snd

/-- Query options for `filter_list`: offset/limit pagination and an optional
sort key with ascending/descending order. -/
structure QueryOptions where
  offset : Nat
  limit : Option Nat
  sortKey : Option String
  sortDesc : Bool
deriving DecidableEq, Repr

/-- Insert into a list sorted by `le`. -/
def insertBy (le : α → α → Bool) (a : α) : List α → List α
  | [] => [a]
  | b :: bs => if le a b then a :: b :: bs else b :: insertBy le a bs

/-- Insertion sort by `le`. -/
def sortBy (le : α → α → Bool) : List α → List α
  | [] => []
  | a :: as => insertBy le a (sortBy le as)

/-- Record comparison by the value of a sort key. -/
def keyLe (key : String) (r s : JailRecord) : Bool :=
  match attrOf r key, attrOf s key with
  | none, _ => true
  | some _, none => false
  | some a, some b => decide (a < b) || a == b

/-- Modelled from the spec: `filter_list` (imported from `middlewared.utils`)
is not among the provided sources.  The spec describes it as "generic
filter/sort/pagination semantics ... (equality ... predicates over jail
attributes; offset/limit; sort key with ascending/descending order)".
Modelled as equality filters over the attribute mapping, then the optional
sort, then offset and limit. -/
def filter_list (jails : List JailRecord) (filters : List (String × String))
    (options : QueryOptions) : List JailRecord :=
  let l := jails.filter (fun r => filters.all (fun kv => attrOf r kv.1 == some kv.2))
  let l :=
    match options.sortKey with
    | none => l
    | some k =>
      let sorted := sortBy (keyLe k) l
      if options.sortDesc then sorted.reverse else sorted
  let l := l.drop options.offset
  match options.limit with
  | some n => l.take n
  | none => l

/-- `JailService.query`: enumerate all jails from the backend
(`ioc.IOCage().get("all", recursive=True)` yields one single-entry mapping
per jail; the comprehension keeps each mapping's first value); any backend
exception is swallowed, leaving the empty enumeration; then `filter_list`
is applied. -/
def query (backendJails : Except String (List (String × JailRecord)))
    (filters : List (String × String)) (options : QueryOptions) :
    List JailRecord :=
  let jails :=
    match backendJails with
    | .ok l => l.map Prod.snd
    | .error _ => []
  filter_list jails filters options

/-! ### Fstab editing -/

/-- The fstab actions (schema enum, lowercased by the method). -/
inductive FstabAction where
  | add
  | edit
  | remove
  | replace
  | list
deriving DecidableEq, Repr

/-- The lowercase action string passed to `iocage.fstab`. -/
def FstabAction.name : FstabAction → String
  | .add => "add"
  | .edit => "edit"
  | .remove => "remove"
  | .replace => "replace"
  | .list => "list"

/-- `fstab`'s options dictionary (the `index` schema field defaults to
`None`). -/
structure FstabOptions where
  action : FstabAction
  source : String
  destination : String
  fstype : String
  fsoptions : String
  dump : String
  pass : String
  index : Option Int
deriving DecidableEq, Repr

/-- Python's `str.split()` on an fstab line (whitespace tokenization). -/
def splitWs (s : String) : List String :=
  (s.splitOn " ").filter (fun t => t != "")

/-- Return value of `fstab`: `True`, or the split listing for the list
action. -/
inductive FstabResult where
  | done
  | listing (entries : List (Nat × List String))
deriving DecidableEq, Repr

/-- `JailService.fstab`: resolve the identifier; for the replace action with
`index is None` raise `ValueError` before any delegation; otherwise delegate
`iocage.fstab(...)` and, for the list action, split each returned line into
tokens (`backendEntries` is what the backend returns for the list action). -/
def fstab (env : Env) (jail : String) (opts : FstabOptions)
    (backendEntries : List (Nat × String)) : OpOut FstabResult :=
  match findJail env jail with
  | none => ⟨.error (.notFound jail), env, []⟩
  | some _ =>
    if opts.action == .replace && opts.index.isNone then
      ⟨.error (.validation "index must not be None when replacing fstab entry"),
        env, []⟩
    else
      let res :=
        match opts.action with
        | .list => FstabResult.listing
            (backendEntries.map (fun e => (e.1, splitWs e.2)))
        | _ => FstabResult.done
      ⟨.ok res, env, [.fstabDelegate opts.action.name]⟩

/-! ### Resource listing -/

/-- The resource kinds accepted by `list_resource`. -/
inductive ResourceKind where
  | release
  | template
  | plugin
deriving DecidableEq, Repr

/-- The backend answers for each `list_resource` branch: plugin rows (remote
via `iocage.fetch(list=True, plugins=True)`, local via
`iocage.list("all", plugin=True)`), release name lists (via
`iocage.fetch(list=True, remote=remote, http=True)`), and the template list
(via `iocage.list("template")`). -/
structure ResourceBackend where
  pluginRemote : List (List String)
  pluginLocal : List (List String)
  releaseRemote : List String
  releaseLocal : List String
  templateList : List String
deriving DecidableEq, Repr

/-- What `list_resource` returns: plugin rows whose cells may have been
normalized to an absent value, or a raw name list for the other kinds. -/
inductive ResourceList where
  | rows (l : List (List (Option String)))
  | names (l : List String)
deriving DecidableEq, Repr

/-- The plugin branch's in-place normalization:
`plugin[i] = elem if elem != "-" else None`. -/
def normalizeCell (s : String) : Option String :=
  if s == "-" then none else some s

/-- `JailService.list_resource`: the plugin branch fetches rows and replaces
the `-` sentinel by an absent value cell by cell; the release branch
(schema `RELEASE`, internally `base`) and the template branch return the
backend's lists as they are. -/
def list_resource (bk : ResourceBackend) (resource : ResourceKind)
    (remote : Bool) : ResourceList :=
  match resource with
  | .plugin =>
    let l := if remote then bk.pluginRemote else bk.pluginLocal
    .rows (l.map (fun row => row.map normalizeCell))
  | .release => .names (if remote then bk.releaseRemote else bk.releaseLocal)
  | .template => .names bk.templateList

/-- Does a returned resource list still hold the backend's `-` sentinel? -/
def hasSentinel : ResourceList → Bool
  | .rows l => l.any (fun row => row.any (fun c => c == some "-"))
  | .names l => l.any (fun s => s == "-")

/-! ### Jail creation -/

/-- `create_job`'s inputs.  `template = ""` embeds a Python-falsy template
(absent or empty string); the other schema fields that the control flow
reads are `release` and `empty`. -/
structure CreateOptions where
  release : String
  template : String
  empty : Bool
  basejail : Bool
  short : Bool
deriving DecidableEq, Repr

/-- The effective release of `create_job`: `if template: release = template`. -/
def effRelease (opts : CreateOptions) : String :=
  if opts.template != "" then opts.template else opts.release

/-- `JailService.create_job`: when the release image directory
(`{iocroot}/releases/{release}`, embedded by membership in `localReleases`)
is missing and the jail is neither template-based nor empty, call
`jail.fetch` synchronously and wait for it (`call_sync(...).wait_sync()`,
whose failure propagates); then delegate `iocage.create(...)`, raising
`CallError` when it reports an error. -/
def create_job (localReleases : List String) (opts : CreateOptions)
    (fetchOk : Bool) (createOk : Bool) : Except JailError Bool × List Call :=
  let release := effRelease opts
  let needsFetch :=
    !(localReleases.contains release) && opts.template == "" && !opts.empty
  if needsFetch && !fetchOk then
    (.error (.callError "fetch failed"), [.fetchRelease release])
  else
    let fetchCalls := if needsFetch then [Call.fetchRelease release] else []
    if createOk then
      (.ok true, fetchCalls ++ [.createDelegate release])
    else
      (.error (.callError "create failed"), fetchCalls ++ [.createDelegate release])

/-! ### Helper lemmas -/

/-- Updating a jail's run state updates exactly that jail in lookups. -/
theorem findJail_setRun (env : Env) (i : String) (rs : RunState) :
    findJail (setRun env i rs) i =
      (findJail env i).map (fun j => { j with runState := rs }) := by
  induction env with
  | nil => rfl
  | cons h t ih =>
    unfold findJail setRun at *
    by_cases hc : h.uuid == i
    · simp [List.find?, hc]
    · simp only [List.map_cons, if_neg hc, List.find?]
      simp only [Bool.not_eq_true] at hc
      simp only [hc]
      exact ih

/-- Run state after `setRun` on a jail present in the inventory. -/
theorem runStateOf_setRun_of_found (env : Env) (i : String) (j : Jail)
    (rs : RunState) (hfind : findJail env i = some j) :
    runStateOf (setRun env i rs) i = some rs := by
  unfold runStateOf
  rw [findJail_setRun, hfind]
  rfl

/-- `start` on an existing jail. -/
theorem start_found (env : Env) (i : String) (j : Jail)
    (hfind : findJail env i = some j) :
    start env i = ⟨.ok true, setRun env i .running, [.start i]⟩ := by
  unfold start
  rw [hfind]

/-- `stop` on an existing jail. -/
theorem stop_found (env : Env) (i : String) (j : Jail)
    (hfind : findJail env i = some j) :
    stop env i = ⟨.ok true, setRun env i .stopped, [.stop i]⟩ := by
  unfold stop
  rw [hfind]

/-! ### C4 — inventory query under backend failure -/

/-- C4: for every backend failure during jail enumeration, `query` returns
the filter/sort/pagination step applied to no jails, which is the empty
sequence; no error propagates. -/
theorem query_backend_failure_returns_empty (e : String)
    (filters : List (String × String)) (options : QueryOptions) :
    query (.error e) filters options = filter_list [] filters options ∧
    query (.error e) filters options = [] := by
  refine ⟨rfl, ?_⟩
  obtain ⟨off, lim, sk, sd⟩ := options
  cases sk <;> cases lim <;> cases sd <;>
    simp [query, filter_list, sortBy]

/-! ### C3 — activate on an unknown pool name -/

/-- C3 counterexample: activating a pool name absent from the backend's pool
list raises no error at all — the call returns `True` while the sweep
deactivates every pool, so the claimed `PoolNotFoundError` never occurs. -/
theorem activate_unknown_pool_returns_ok_cex :
    (activate [⟨"tank", true⟩] "nope").1 = .ok true ∧
    (activate [⟨"tank", true⟩] "nope").2 = [⟨"tank", false⟩] := by
  decide

/-- C3 amended: when the pool name does not exist among the backend's pools,
`activate` still executes the sweep, deactivating all pools, and returns
`True` — no `PoolNotFoundError` (or any error) is raised. -/
theorem activate_unknown_pool_sweeps_all_inactive (pools : List StoragePool)
    (name : String) (habsent : ∀ p ∈ pools, p.name ≠ name) :
    (activate pools name).1 = .ok true ∧
    ∀ p ∈ (activate pools name).2, p.active = false := by
  refine ⟨rfl, ?_⟩
  intro p hp
  simp only [activate, List.mem_map] at hp
  obtain ⟨q, hq, rfl⟩ := hp
  have hne : (q.name == name) = false := by
    simpa using habsent q hq
  simp [hne]

/-- Witness for C3 amended at a concrete pool list. -/
theorem activate_unknown_pool_sweeps_all_inactive_witness :
    (activate [⟨"tank", true⟩, ⟨"backup", false⟩] "nope").1 = .ok true ∧
    ∀ p ∈ (activate [⟨"tank", true⟩, ⟨"backup", false⟩] "nope").2,
      p.active = false :=
  activate_unknown_pool_sweeps_all_inactive
    [⟨"tank", true⟩, ⟨"backup", false⟩] "nope" (by decide)

/-! ### C7 — activate is idempotent and leaves exactly one pool active -/

/-- C7: after `activate p` — and equally after a second `activate p` — a pool
is active exactly when it is named `p`, and when `p` exists some pool named
`p` is active; re-activating changes nothing. -/
theorem activate_idempotent_single_active (pools : List StoragePool)
    (p : String) (hex : ∃ q ∈ pools, q.name = p) :
    (∃ q ∈ (activate pools p).2, q.name = p ∧ q.active = true) ∧
    (∀ q ∈ (activate pools p).2, (q.active = true ↔ q.name = p)) ∧
    activate (activate pools p).2 p = activate pools p := by
  refine ⟨?_, ?_, ?_⟩
  · obtain ⟨q, hq, hname⟩ := hex
    refine ⟨{ q with active := true }, ?_, hname, rfl⟩
    simp only [activate, List.mem_map]
    exact ⟨q, hq, by simp [hname]⟩
  · intro q hq
    simp only [activate, List.mem_map] at hq
    obtain ⟨r, _, rfl⟩ := hq
    by_cases h : r.name = p
    · simp [h]
    · have : (r.name == p) = false := by simpa using h
      simp [this, h]
  · simp only [activate, Prod.mk.injEq, List.map_map, true_and]
    apply List.map_congr_left
    intro q _
    by_cases h : q.name = p <;> simp [h]

/-- Witness for C7 at a concrete pool list, applying the theorem twice is
unnecessary: the conclusion already covers the second call. -/
theorem activate_idempotent_single_active_witness :
    (∃ q ∈ (activate [⟨"tank", false⟩, ⟨"data", true⟩] "tank").2,
      q.name = "tank" ∧ q.active = true) ∧
    (∀ q ∈ (activate [⟨"tank", false⟩, ⟨"data", true⟩] "tank").2,
      (q.active = true ↔ q.name = "tank")) ∧
    activate (activate [⟨"tank", false⟩, ⟨"data", true⟩] "tank").2 "tank" =
      activate [⟨"tank", false⟩, ⟨"data", true⟩] "tank" :=
  activate_idempotent_single_active [⟨"tank", false⟩, ⟨"data", true⟩] "tank"
    (by decide)

/-! ### C10 — sentinel normalization in list_resource -/

/-- C10 counterexample: a Release listing containing the backend sentinel
`-` is returned as-is — the sentinel survives in the output, so the claimed
normalization for every resource kind fails for `RELEASE`. -/
theorem list_resource_release_sentinel_cex :
    hasSentinel
      (list_resource ⟨[], [], [], ["11.1-RELEASE", "-"], []⟩ .release false)
      = true ∧
    list_resource ⟨[], [], [], ["11.1-RELEASE", "-"], []⟩ .release false =
      .names ["11.1-RELEASE", "-"] := by
  decide

/-- C10 amended: only the Plugin branch normalizes the backend sentinel `-`
to an absent value; for every backend and remote flag the plugin rows come
back sentinel-free, while Release and Template lists are returned raw. -/
theorem list_resource_plugin_sentinel_normalized (bk : ResourceBackend)
    (remote : Bool) :
    hasSentinel (list_resource bk .plugin remote) = false := by
  have hcell : ∀ s : String, (normalizeCell s == some "-") = false := by
    intro s
    by_cases h : s = "-"
    · simp [normalizeCell, h]
    · simp [normalizeCell, h]
  unfold list_resource hasSentinel
  rw [Bool.eq_false_iff]
  intro hany
  rw [List.any_eq_true] at hany
  obtain ⟨row, hrow, hrowany⟩ := hany
  rw [List.mem_map] at hrow
  obtain ⟨r, hr, rfl⟩ := hrow
  rw [List.any_eq_true] at hrowany
  obtain ⟨c, hc, hceq⟩ := hrowany
  rw [List.mem_map] at hc
  obtain ⟨s, hs, rfl⟩ := hc
  rw [hcell s] at hceq
  exact Bool.false_ne_true hceq

/-! ### C5 — fstab Replace requires an index -/

/-- C5: for every jail and every fstab options value whose action is Replace
and whose index is absent, `fstab` raises the validation error before any
delegation — the returned call trace is empty, so the backend never sees a
defaulted index. -/
theorem fstab_replace_without_index_validation_error (env : Env)
    (jail : String) (j : Jail) (hfind : findJail env jail = some j)
    (opts : FstabOptions) (entries : List (Nat × String))
    (hact : opts.action = .replace) (hidx : opts.index = none) :
    fstab env jail opts entries =
      ⟨.error (.validation "index must not be None when replacing fstab entry"),
        env, []⟩ := by
  unfold fstab
  rw [hfind]
  simp [hact, hidx]

/-- Witness for C5 at a concrete jail and options value. -/
theorem fstab_replace_without_index_validation_error_witness :
    fstab [⟨"web1", "/i/jails/web1", .stopped, "jail", "no", "11.1-RELEASE"⟩]
      "web1" ⟨.replace, "/src", "/dst", "nullfs", "ro", "0", "0", none⟩ [] =
      ⟨.error (.validation "index must not be None when replacing fstab entry"),
        [⟨"web1", "/i/jails/web1", .stopped, "jail", "no", "11.1-RELEASE"⟩],
        []⟩ :=
  fstab_replace_without_index_validation_error _ "web1"
    ⟨"web1", "/i/jails/web1", .stopped, "jail", "no", "11.1-RELEASE"⟩
    (by decide) _ [] rfl rfl

/-! ### C6 — unresolved identifiers fail with the not-found error -/

/-- C6: for every identifier that does not resolve to an existing jail, each
of Start, Stop, Delete, Set-Property, Export and Upgrade fails with the
jail-not-found error raised by identifier resolution, leaves the inventory
untouched, and delegates no backend work (empty call trace). -/
theorem targeting_ops_unknown_identifier_not_found (env : Env)
    (ident : String) (hfind : findJail env ident = none) (plugin : Bool)
    (props : List (String × String)) (name : Option String)
    (release : String) (b b' : Bool) :
    start env ident = ⟨.error (.notFound ident), env, []⟩ ∧
    stop env ident = ⟨.error (.notFound ident), env, []⟩ ∧
    do_delete env ident = ⟨.error (.notFound ident), env, []⟩ ∧
    do_update env ident plugin props name = ⟨.error (.notFound ident), env, []⟩ ∧
    export' env ident b = ⟨.error (.notFound ident), env, []⟩ ∧
    upgrade env ident release b' = ⟨.error (.notFound ident), env, []⟩ := by
  unfold start stop do_delete do_update export' upgrade
  rw [hfind]
  exact ⟨rfl, rfl, rfl, rfl, rfl, rfl⟩

/-- Witness for C6 on the empty inventory. -/
theorem targeting_ops_unknown_identifier_not_found_witness :
    start [] "ghost" = ⟨.error (.notFound "ghost"), [], []⟩ ∧
    stop [] "ghost" = ⟨.error (.notFound "ghost"), [], []⟩ ∧
    do_delete [] "ghost" = ⟨.error (.notFound "ghost"), [], []⟩ ∧
    do_update [] "ghost" false [("vnet", "on")] none =
      ⟨.error (.notFound "ghost"), [], []⟩ ∧
    export' [] "ghost" true = ⟨.error (.notFound "ghost"), [], []⟩ ∧
    upgrade [] "ghost" "12.0-RELEASE" true =
      ⟨.error (.notFound "ghost"), [], []⟩ :=
  targeting_ops_unknown_identifier_not_found [] "ghost" rfl false
    [("vnet", "on")] none "12.0-RELEASE" true true

/-! ### C8 — create fetches exactly when the image is missing -/

/-- C8: `create_job` delegates a synchronous fetch of the effective release,
completed before the dataset-creation delegate, exactly when the release
image is absent locally and the jail is neither template-based nor empty;
otherwise no fetch appears in the trace. -/
theorem create_job_fetch_exactly_when_image_missing
    (localReleases : List String) (opts : CreateOptions)
    (fetchOk createOk : Bool) :
    ((create_job localReleases opts fetchOk createOk).2.head? =
        some (Call.fetchRelease (effRelease opts)) ↔
      (localReleases.contains (effRelease opts) = false ∧
        opts.template = "" ∧ opts.empty = false)) ∧
    ((localReleases.contains (effRelease opts) = false ∧ opts.template = "" ∧
        opts.empty = false) → fetchOk = true →
      (create_job localReleases opts fetchOk createOk).2 =
        [Call.fetchRelease (effRelease opts),
          Call.createDelegate (effRelease opts)]) ∧
    (¬(localReleases.contains (effRelease opts) = false ∧ opts.template = "" ∧
        opts.empty = false) →
      (create_job localReleases opts fetchOk createOk).2 =
        [Call.createDelegate (effRelease opts)]) := by
  by_cases h1 : effRelease opts ∈ localReleases <;>
    by_cases h2 : opts.template = "" <;>
      by_cases h3 : opts.empty <;>
        cases fetchOk <;> cases createOk <;>
          simp [create_job, h1, h2, h3]

/-! ### Behaviour equations for the bracketed operations -/

/-- Export of a running jail whose body succeeds: stop, body, restart. -/
theorem export'_running_ok (env : Env) (jail : String) (j : Jail)
    (hfind : findJail env jail = some j) (hrun : j.runState = .running) :
    export' env jail true =
      ⟨.ok true, setRun (setRun env jail .stopped) jail .running,
        [.stop jail, .exportJail j.uuid j.path, .start jail]⟩ := by
  have h2 := findJail_setRun env jail .stopped
  rw [hfind] at h2
  unfold export'
  rw [hfind, stop_found env jail j hfind]
  simp [hrun, start_found _ _ _ h2]

/-- Export of a running jail whose body raises: the jail is left stopped and
the restart never runs. -/
theorem export'_running_fail (env : Env) (jail : String) (j : Jail)
    (hfind : findJail env jail = some j) (hrun : j.runState = .running) :
    export' env jail false =
      ⟨.error (.callError "export_jail failed"), setRun env jail .stopped,
        [.stop jail, .exportJail j.uuid j.path]⟩ := by
  unfold export'
  rw [hfind, stop_found env jail j hfind]
  simp [hrun]

/-- Export of a stopped jail: no transition in either direction. -/
theorem export'_stopped (env : Env) (jail : String) (j : Jail) (b : Bool)
    (hfind : findJail env jail = some j) (hrun : j.runState = .stopped) :
    export' env jail b =
      ⟨if b then .ok true else .error (.callError "export_jail failed"), env,
        [.exportJail j.uuid j.path]⟩ := by
  unfold export'
  rw [hfind]
  cases b <;> simp [hrun]

/-- Upgrade of a stopped jail whose body succeeds: start, body, stop. -/
theorem upgrade_stopped_ok (env : Env) (jail : String) (j : Jail)
    (release : String) (hfind : findJail env jail = some j)
    (htype : j.confType = "jail") (hrun : j.runState = .stopped) :
    upgrade env jail release true =
      ⟨.ok true, setRun (setRun env jail .running) jail .stopped,
        [.start jail, .upgradeJail release, .stop jail]⟩ := by
  have h2 := findJail_setRun env jail .running
  rw [hfind] at h2
  unfold upgrade
  rw [hfind, start_found env jail j hfind]
  simp [htype, hrun, stop_found _ _ _ h2]

/-- Upgrade of a stopped jail whose body raises: the jail is left running and
the stop-back never runs. -/
theorem upgrade_stopped_fail (env : Env) (jail : String) (j : Jail)
    (release : String) (hfind : findJail env jail = some j)
    (htype : j.confType = "jail") (hrun : j.runState = .stopped) :
    upgrade env jail release false =
      ⟨.error (.callError "upgrade_jail failed"), setRun env jail .running,
        [.start jail, .upgradeJail release]⟩ := by
  unfold upgrade
  rw [hfind, start_found env jail j hfind]
  simp [htype, hrun]

/-- Upgrade of an already running jail: no transition in either direction. -/
theorem upgrade_running (env : Env) (jail : String) (j : Jail)
    (release : String) (b : Bool) (hfind : findJail env jail = some j)
    (htype : j.confType = "jail") (hrun : j.runState = .running) :
    upgrade env jail release b =
      ⟨if b then .ok true else .error (.callError "upgrade_jail failed"), env,
        [.upgradeJail release]⟩ := by
  unfold upgrade
  rw [hfind]
  cases b <;> simp [htype, hrun]

/-- Update of a stopped jail whose body succeeds: start, body, stop. -/
theorem update_stopped_ok (env : Env) (jail : String) (j : Jail)
    (hfind : findJail env jail = some j) (htype : j.confType = "jail")
    (hrun : j.runState = .stopped) :
    update_to_latest_patch env jail true =
      ⟨.ok true, setRun (setRun env jail .running) jail .stopped,
        [.start jail,
          .fetchUpdate (normalizeRelease j.release) (j.basejail != "yes"),
          .stop jail]⟩ := by
  have h2 := findJail_setRun env jail .running
  rw [hfind] at h2
  unfold update_to_latest_patch
  rw [hfind, start_found env jail j hfind]
  simp [htype, hrun, stop_found _ _ _ h2]

/-- Update of a stopped jail whose body raises: the jail is left running and
the stop-back never runs. -/
theorem update_stopped_fail (env : Env) (jail : String) (j : Jail)
    (hfind : findJail env jail = some j) (htype : j.confType = "jail")
    (hrun : j.runState = .stopped) :
    update_to_latest_patch env jail false =
      ⟨.error (.callError "fetch_update failed"), setRun env jail .running,
        [.start jail,
          .fetchUpdate (normalizeRelease j.release) (j.basejail != "yes")]⟩ := by
  unfold update_to_latest_patch
  rw [hfind, start_found env jail j hfind]
  simp [htype, hrun]

/-- Update of an already running jail: no transition in either direction. -/
theorem update_running (env : Env) (jail : String) (j : Jail) (b : Bool)
    (hfind : findJail env jail = some j) (htype : j.confType = "jail")
    (hrun : j.runState = .running) :
    update_to_latest_patch env jail b =
      ⟨if b then .ok true else .error (.callError "fetch_update failed"), env,
        [.fetchUpdate (normalizeRelease j.release) (j.basejail != "yes")]⟩ := by
  unfold update_to_latest_patch
  rw [hfind]
  cases b <;> simp [htype, hrun]

/-! ### C1 — the bracket's restore step on body failure -/

/-- C1 counterexample: a running jail of runnable kind is stopped by the
export bracket; when the delegated archive step fails, the original error
propagates but the jail stays stopped — the restore step does not run, so
the final state differs from the pre-operation state. -/
theorem export_body_failure_skips_restore_cex :
    runStateOf [⟨"db1", "/i/jails/db1", .running, "jail", "no",
      "11.1-RELEASE"⟩] "db1" = some .running ∧
    (export' [⟨"db1", "/i/jails/db1", .running, "jail", "no",
      "11.1-RELEASE"⟩] "db1" false).result =
      .error (.callError "export_jail failed") ∧
    runStateOf (export' [⟨"db1", "/i/jails/db1", .running, "jail", "no",
      "11.1-RELEASE"⟩] "db1" false).env "db1" = some .stopped := by
  decide

/-- C1 amended: for the bracketed operations (Export, Upgrade,
Update-to-latest-patch) on a jail of runnable kind, the bracket restores the
exact pre-operation run state only when the delegated body succeeds; when
the body fails the original error propagates and the jail is left in the
state the bracket transitioned it into — no restore runs. -/
theorem bracket_restores_only_on_success (env : Env) (jail : String)
    (j : Jail) (hfind : findJail env jail = some j)
    (htype : j.confType = "jail") (release : String) :
    runStateOf (export' env jail true).env jail = some j.runState ∧
    runStateOf (upgrade env jail release true).env jail = some j.runState ∧
    runStateOf (update_to_latest_patch env jail true).env jail =
      some j.runState ∧
    (j.runState = .running →
      (export' env jail false).result =
        .error (.callError "export_jail failed") ∧
      runStateOf (export' env jail false).env jail = some .stopped) ∧
    (j.runState = .stopped →
      (upgrade env jail release false).result =
        .error (.callError "upgrade_jail failed") ∧
      runStateOf (upgrade env jail release false).env jail = some .running) ∧
    (j.runState = .stopped →
      (update_to_latest_patch env jail false).result =
        .error (.callError "fetch_update failed") ∧
      runStateOf (update_to_latest_patch env jail false).env jail =
        some .running) := by
  have hup : runStateOf env jail = some j.runState := by
    unfold runStateOf
    rw [hfind]
    rfl
  have hs : findJail (setRun env jail .stopped) jail =
      some { j with runState := .stopped } := by
    rw [findJail_setRun, hfind]
    rfl
  have hr : findJail (setRun env jail .running) jail =
      some { j with runState := .running } := by
    rw [findJail_setRun, hfind]
    rfl
  refine ⟨?_, ?_, ?_, ?_, ?_, ?_⟩
  · cases hrun : j.runState with
    | running =>
      rw [export'_running_ok env jail j hfind hrun]
      exact runStateOf_setRun_of_found _ _ _ _ hs
    | stopped =>
      rw [export'_stopped env jail j true hfind hrun]
      rw [hrun] at hup
      exact hup
  · cases hrun : j.runState with
    | running =>
      rw [upgrade_running env jail j release true hfind htype hrun]
      rw [hrun] at hup
      exact hup
    | stopped =>
      rw [upgrade_stopped_ok env jail j release hfind htype hrun]
      exact runStateOf_setRun_of_found _ _ _ _ hr
  · cases hrun : j.runState with
    | running =>
      rw [update_running env jail j true hfind htype hrun]
      rw [hrun] at hup
      exact hup
    | stopped =>
      rw [update_stopped_ok env jail j hfind htype hrun]
      exact runStateOf_setRun_of_found _ _ _ _ hr
  · intro hrun
    rw [export'_running_fail env jail j hfind hrun]
    exact ⟨rfl, runStateOf_setRun_of_found _ _ _ _ hfind⟩
  · intro hrun
    rw [upgrade_stopped_fail env jail j release hfind htype hrun]
    exact ⟨rfl, runStateOf_setRun_of_found _ _ _ _ hfind⟩
  · intro hrun
    rw [update_stopped_fail env jail j hfind htype hrun]
    exact ⟨rfl, runStateOf_setRun_of_found _ _ _ _ hfind⟩

/-- Witness for C1 amended on a concrete running jail. -/
theorem bracket_restores_only_on_success_witness :
    runStateOf (export' [⟨"db1", "/i/jails/db1", .running, "jail", "no",
      "11.1-RELEASE"⟩] "db1" true).env "db1" = some RunState.running ∧
    runStateOf (upgrade [⟨"db1", "/i/jails/db1", .running, "jail", "no",
      "11.1-RELEASE"⟩] "db1" "12.0-RELEASE" true).env "db1" =
      some RunState.running ∧
    runStateOf (update_to_latest_patch [⟨"db1", "/i/jails/db1", .running,
      "jail", "no", "11.1-RELEASE"⟩] "db1" true).env "db1" =
      some RunState.running ∧
    (RunState.running = .running →
      (export' [⟨"db1", "/i/jails/db1", .running, "jail", "no",
        "11.1-RELEASE"⟩] "db1" false).result =
        .error (.callError "export_jail failed") ∧
      runStateOf (export' [⟨"db1", "/i/jails/db1", .running, "jail", "no",
        "11.1-RELEASE"⟩] "db1" false).env "db1" = some .stopped) ∧
    (RunState.running = .stopped →
      (upgrade [⟨"db1", "/i/jails/db1", .running, "jail", "no",
        "11.1-RELEASE"⟩] "db1" "12.0-RELEASE" false).result =
        .error (.callError "upgrade_jail failed") ∧
      runStateOf (upgrade [⟨"db1", "/i/jails/db1", .running, "jail", "no",
        "11.1-RELEASE"⟩] "db1" "12.0-RELEASE" false).env "db1" =
        some .running) ∧
    (RunState.running = .stopped →
      (update_to_latest_patch [⟨"db1", "/i/jails/db1", .running, "jail",
        "no", "11.1-RELEASE"⟩] "db1" false).result =
        .error (.callError "fetch_update failed") ∧
      runStateOf (update_to_latest_patch [⟨"db1", "/i/jails/db1", .running,
        "jail", "no", "11.1-RELEASE"⟩] "db1" false).env "db1" =
        some .running) :=
  bracket_restores_only_on_success
    [⟨"db1", "/i/jails/db1", .running, "jail", "no", "11.1-RELEASE"⟩] "db1"
    ⟨"db1", "/i/jails/db1", .running, "jail", "no", "11.1-RELEASE"⟩
    (by decide) rfl "12.0-RELEASE"

/-! ### C2 — non-runnable kinds and the three bracketed operations -/

/-- C2 counterexample: Export of a pure template does not short-circuit to
`false`: it performs the archive operation and returns `True`, so the claim
that all three bracketed operations resolve to "not applicable" for
non-jail kinds fails for Export. -/
theorem export_ignores_jail_kind_cex :
    (export' [⟨"tpl1", "/i/templates/tpl1", .stopped, "template", "no",
      "11.1-RELEASE"⟩] "tpl1" true).result = .ok true ∧
    (export' [⟨"tpl1", "/i/templates/tpl1", .stopped, "template", "no",
      "11.1-RELEASE"⟩] "tpl1" true).calls =
      [.exportJail "tpl1" "/i/templates/tpl1"] := by
  decide

/-- C2 amended: for a jail whose kind is not a runnable jail,
Update-to-latest-patch and Upgrade short-circuit to `false` with no run-state
transition and no delegated work, but Export performs the archive operation
regardless of kind. -/
theorem nonjail_short_circuit_update_upgrade_only (env : Env) (jail : String)
    (j : Jail) (hfind : findJail env jail = some j)
    (htype : j.confType ≠ "jail") (release : String) (b b' b'' : Bool) :
    update_to_latest_patch env jail b = ⟨.ok false, env, []⟩ ∧
    upgrade env jail release b' = ⟨.ok false, env, []⟩ ∧
    Call.exportJail j.uuid j.path ∈ (export' env jail b'').calls := by
  have hct : (j.confType == "jail") = false := by
    simpa using htype
  refine ⟨?_, ?_, ?_⟩
  · unfold update_to_latest_patch
    rw [hfind]
    cases b <;> simp [hct]
  · unfold upgrade
    rw [hfind]
    cases b' <;> simp [hct]
  · unfold export'
    rw [hfind]
    cases b'' <;> simp

/-- Witness for C2 amended on a concrete template. -/
theorem nonjail_short_circuit_update_upgrade_only_witness :
    update_to_latest_patch [⟨"tpl1", "/i/templates/tpl1", .stopped,
      "template", "no", "11.1-RELEASE"⟩] "tpl1" true =
      ⟨.ok false, [⟨"tpl1", "/i/templates/tpl1", .stopped, "template", "no",
        "11.1-RELEASE"⟩], []⟩ ∧
    upgrade [⟨"tpl1", "/i/templates/tpl1", .stopped, "template", "no",
      "11.1-RELEASE"⟩] "tpl1" "12.0-RELEASE" true =
      ⟨.ok false, [⟨"tpl1", "/i/templates/tpl1", .stopped, "template", "no",
        "11.1-RELEASE"⟩], []⟩ ∧
    Call.exportJail "tpl1" "/i/templates/tpl1" ∈
      (export' [⟨"tpl1", "/i/templates/tpl1", .stopped, "template", "no",
        "11.1-RELEASE"⟩] "tpl1" true).calls :=
  nonjail_short_circuit_update_upgrade_only
    [⟨"tpl1", "/i/templates/tpl1", .stopped, "template", "no",
      "11.1-RELEASE"⟩] "tpl1"
    ⟨"tpl1", "/i/templates/tpl1", .stopped, "template", "no", "11.1-RELEASE"⟩
    (by decide) (by decide) "12.0-RELEASE" true true true

/-! ### C9 — release-tag normalization -/

/-- A dash-free character list yields no right split. -/
theorem rsplitHeadAux_eq_none (ys : List Char) (h : '-' ∉ ys) :
    rsplitHeadAux ys = none := by
  induction ys with
  | nil => rfl
  | cons c rest ih =>
    have hc : (c == '-') = false := by
      apply beq_eq_false_iff_ne.mpr
      intro hceq
      subst hceq
      exact h (List.mem_cons_self _ _)
    have hrest : '-' ∉ rest := fun hm => h (List.mem_cons_of_mem c hm)
    simp [rsplitHeadAux, ih hrest, hc]

/-- Splitting at the last dash when everything after it is dash-free. -/
theorem rsplitHeadAux_append (xs ys : List Char)
    (h : rsplitHeadAux ys = none) :
    rsplitHeadAux (xs ++ '-' :: ys) = some xs := by
  induction xs with
  | nil => simp [rsplitHeadAux, h]
  | cons c cs ih => simp [rsplitHeadAux, ih]

/-- Every list starts with itself. -/
theorem startsWith_append_self (p t : List Char) :
    startsWith p (p ++ t) = true := by
  induction p with
  | nil => rfl
  | cons a as ih => simp [startsWith, ih]

/-- A match at the very front is a substring match. -/
theorem hasSub_of_startsWith (p hay : List Char)
    (h : startsWith p hay = true) : hasSub p hay = true := by
  cases hay with
  | nil => exact h
  | cons c rest => simp [hasSub, h]

/-- A list containing `p` contiguously has `p` as a substring. -/
theorem hasSub_append (p xs zs : List Char) :
    hasSub p (xs ++ (p ++ zs)) = true := by
  induction xs with
  | nil => exact hasSub_of_startsWith p (p ++ zs) (startsWith_append_self p zs)
  | cons c cs ih => simp [hasSub, ih]

/-- String append concatenates the character data. -/
theorem sdata_append (a b : String) : (a ++ b).data = a.data ++ b.data := by
  cases a
  cases b
  rfl

/-- Normalization strips a patch-level suffix from a `-RELEASE` tag. -/
theorem normalizeRelease_patch (X N : String) (hN : '-' ∉ N.data) :
    normalizeRelease (X ++ "-RELEASE-p" ++ N) = X ++ "-RELEASE" := by
  have hys : rsplitHeadAux ('p' :: N.data) = none := by
    apply rsplitHeadAux_eq_none
    intro hm
    rcases List.mem_cons.mp hm with h1 | h1
    · exact absurd h1 (by decide)
    · exact hN h1
  have hdata : (X ++ "-RELEASE-p" ++ N).data =
      (X.data ++ "-RELEASE".data) ++ '-' :: ('p' :: N.data) := by
    rw [sdata_append, sdata_append]
    simp only [List.append_assoc]
    rfl
  have hhead : rsplitHead (X ++ "-RELEASE-p" ++ N) =
      ⟨X.data ++ "-RELEASE".data⟩ := by
    unfold rsplitHead
    rw [hdata, rsplitHeadAux_append _ _ hys]
  have hsub : hasSub "-RELEASE".data (X.data ++ "-RELEASE".data) = true := by
    have h0 := hasSub_append "-RELEASE".data X.data []
    simpa using h0
  unfold normalizeRelease
  rw [hhead]
  simp only [hsub]
  cases X
  rfl

/-- Normalization keeps a bare `-RELEASE` tag unchanged (the fallback when
stripping the last dash removed the channel suffix). -/
theorem normalizeRelease_plain (X : String)
    (hX : hasSub "-RELEASE".data X.data = false) :
    normalizeRelease (X ++ "-RELEASE") = X ++ "-RELEASE" := by
  have hys : rsplitHeadAux "RELEASE".data = none := by
    apply rsplitHeadAux_eq_none
    decide
  have hdata : (X ++ "-RELEASE").data = X.data ++ '-' :: "RELEASE".data := by
    rw [sdata_append]
  have hhead : rsplitHead (X ++ "-RELEASE") = ⟨X.data⟩ := by
    unfold rsplitHead
    rw [hdata, rsplitHeadAux_append _ _ hys]
  unfold normalizeRelease
  rw [hhead]
  simp only [hX]
  simp

/-- C9: Update-to-latest-patch delegates the normalized release: a configured
release `X-RELEASE-pN` and a configured release `X-RELEASE` both normalize to
`X-RELEASE`, and the external updater is invoked with exactly the
normalization of the jail's configured release. -/
theorem update_to_latest_patch_release_normalization (X N : String)
    (hN : '-' ∉ N.data) (hX : hasSub "-RELEASE".data X.data = false)
    (env : Env) (jail : String) (j : Jail)
    (hfind : findJail env jail = some j) (htype : j.confType = "jail")
    (b : Bool) :
    normalizeRelease (X ++ "-RELEASE-p" ++ N) = X ++ "-RELEASE" ∧
    normalizeRelease (X ++ "-RELEASE") = X ++ "-RELEASE" ∧
    Call.fetchUpdate (normalizeRelease j.release) (j.basejail != "yes") ∈
      (update_to_latest_patch env jail b).calls := by
  refine ⟨normalizeRelease_patch X N hN, normalizeRelease_plain X hX, ?_⟩
  cases hrun : j.runState with
  | running =>
    rw [update_running env jail j b hfind htype hrun]
    simp
  | stopped =>
    cases b with
    | false =>
      rw [update_stopped_fail env jail j hfind htype hrun]
      simp
    | true =>
      rw [update_stopped_ok env jail j hfind htype hrun]
      simp

/-- Witness for C9 on a concrete configured release `11.1-RELEASE-p5`. -/
theorem update_to_latest_patch_release_normalization_witness :
    normalizeRelease ("11.1" ++ "-RELEASE-p" ++ "5") = "11.1" ++ "-RELEASE" ∧
    normalizeRelease ("11.1" ++ "-RELEASE") = "11.1" ++ "-RELEASE" ∧
    Call.fetchUpdate
      (normalizeRelease
        (Jail.release ⟨"web1", "/i/jails/web1", .stopped, "jail", "no",
          "11.1-RELEASE-p5"⟩))
      (Jail.basejail ⟨"web1", "/i/jails/web1", .stopped, "jail", "no",
          "11.1-RELEASE-p5"⟩ != "yes") ∈
      (update_to_latest_patch [⟨"web1", "/i/jails/web1", .stopped, "jail",
        "no", "11.1-RELEASE-p5"⟩] "web1" true).calls :=
  update_to_latest_patch_release_normalization "11.1" "5" (by decide)
    (by decide)
    [⟨"web1", "/i/jails/web1", .stopped, "jail", "no", "11.1-RELEASE-p5"⟩]
    "web1"
    ⟨"web1", "/i/jails/web1", .stopped, "jail", "no", "11.1-RELEASE-p5"⟩
    (by decide) rfl true

end JailService
